import Mathlib

/-!
Verification development for `vtk3DCursorRepresentation`
(Interaction/Widgets/vtk3DCursorRepresentation.cxx).

The module implements an on-screen 3D cursor: a pick protocol converting a 2D
pointer position into a 3D world position while temporarily masking the
renderer mappers' point/cell identifier-array names, a lazy shape rebuild
driven by a dirty flag, and a per-frame screen-constant-size rescale.

Numbers are modelled as rationals extended with a NaN element (`EFloat`): the
source's numeric edge cases (NaN pick positions, zero-width bounds) are about
NaN propagation and exact zero tests, not rounding. External collaborators
(actor bounds/transform, the pixel-size conversion, the hardware picker) are
parametrised or modelled from the spec, as noted on each definition.
-/

namespace VtkCursor

/-- A double as used by the source: a finite value (exact rational model) or
NaN. The source's guards (`== 0`, `std::isnan`) only distinguish finiteness
and exact zero, so rounding is not modelled. -/
inductive EFloat where
  | fin : ℚ → EFloat
  | nan : EFloat
deriving DecidableEq, Repr

namespace EFloat

/-- IEEE-style addition: NaN propagates. -/
def add : EFloat → EFloat → EFloat
  | fin a, fin b => fin (a + b)
  | _, _ => nan

/-- IEEE-style subtraction: NaN propagates. -/
def sub : EFloat → EFloat → EFloat
  | fin a, fin b => fin (a - b)
  | _, _ => nan

/-- IEEE-style multiplication: NaN propagates. -/
def mul : EFloat → EFloat → EFloat
  | fin a, fin b => fin (a * b)
  | _, _ => nan

/-- Division: NaN propagates. The source never divides by a value that
compares equal to zero (the zero-width guard in `BuildRepresentation` runs
first), so a zero divisor is mapped to NaN here. -/
def div : EFloat → EFloat → EFloat
  | fin a, fin b => if b = 0 then nan else fin (a / b)
  | _, _ => nan

/-- IEEE `==`: NaN compares unequal to everything, including itself. -/
def ieeeEq : EFloat → EFloat → Bool
  | fin a, fin b => decide (a = b)
  | _, _ => false

/-- `std::isnan`. -/
def isNan : EFloat → Bool
  | fin _ => false
  | nan => true

instance : Add EFloat := ⟨add⟩
instance : Sub EFloat := ⟨sub⟩
instance : Mul EFloat := ⟨mul⟩
instance : Div EFloat := ⟨div⟩

end EFloat

/-- A 3D point/vector of doubles (`double[3]`). -/
structure Vec3 where
  x : EFloat
  y : EFloat
  z : EFloat
deriving DecidableEq, Repr

/-- `vtkMath::MultiplyScalar`: multiply every component by a scalar. -/
def Vec3.smul (v : Vec3) (r : EFloat) : Vec3 :=
  ⟨v.x * r, v.y * r, v.z * r⟩

/-- An actor (renderable): mutable position and scale, and an underlying
geometry whose untransformed x-extent is `[baseXmin, baseXmax]`. The source
only reads `bounds[0]` and `bounds[1]` (the x-bounds), so only the x-extent
of the geometry is modelled. -/
structure Actor where
  position : Vec3
  scale : Vec3
  baseXmin : EFloat
  baseXmax : EFloat
deriving DecidableEq, Repr

/-- Modelled from the spec: the external actor's `GetBounds()[0]` — the
geometry extent transformed by the actor's scale and position (the actor's
transform pipeline is an external collaborator, not part of the source). -/
def Actor.boundsXmin (c : Actor) : EFloat :=
  c.position.x + c.baseXmin * c.scale.x

/-- Modelled from the spec: the external actor's `GetBounds()[1]`. -/
def Actor.boundsXmax (c : Actor) : EFloat :=
  c.position.x + c.baseXmax * c.scale.x

/-- `cursorBounds[1] - cursorBounds[0]` as computed in `BuildRepresentation`. -/
def Actor.widthX (c : Actor) : EFloat :=
  c.boundsXmax - c.boundsXmin

/-- Modelled from the spec: `CreateCrossCursor` builds a 3-axis cross actor
(external `vtkCursor3D` mesh, default model bounds `[-1,1]` per axis) with
identity scale at the origin: synchronously realized, non-degenerate extent. -/
def createCrossCursor : Actor :=
  { position := ⟨.fin 0, .fin 0, .fin 0⟩
    scale := ⟨.fin 1, .fin 1, .fin 1⟩
    baseXmin := .fin (-1)
    baseXmax := .fin 1 }

/-- Modelled from the spec: `CreateSphereCursor` builds a sphere actor
(external `vtkSphereSource` mesh, default radius 1/2): synchronously
realized, non-degenerate extent. -/
def createSphereCursor : Actor :=
  { position := ⟨.fin 0, .fin 0, .fin 0⟩
    scale := ⟨.fin 1, .fin 1, .fin 1⟩
    baseXmin := .fin (-(1/2 : ℚ))
    baseXmax := .fin (1/2 : ℚ) }

/-- Modelled from the spec: the shape enum ordinals. The header declaring the
enum is not under src/; the spec fixes the order Cross, Sphere, Custom with a
closed ordinal range check. -/
def CROSS_SHAPE : Int := 0

/-- Modelled from the spec: see `CROSS_SHAPE`. -/
def SPHERE_SHAPE : Int := 1

/-- Modelled from the spec: see `CROSS_SHAPE`. -/
def CUSTOM_SHAPE : Int := 2

/-- The representation's cursor state: `Shape` (an `int` member), the
internals' `NeedUpdate` dirty flag, the non-owning `CustomCursor` reference,
and the internals' `Cursor` smart pointer (null until first assigned).
`HandleSize` and `ValidPick` (base-class members not read by this module's
logic) are not modelled; the pixel-size conversion that consumes
`HandleSize` is parametrised instead. -/
structure RepState where
  Shape : Int
  NeedUpdate : Bool
  CustomCursor : Option Actor
  Cursor : Option Actor
deriving DecidableEq, Repr

/-- `vtkInternals::UpdateCursor`: no-op when `NeedUpdate` is false; otherwise
clear `NeedUpdate` and dispatch on the shape — `CUSTOM_SHAPE` adopts
`CustomCursor` only when it is set, `SPHERE_SHAPE` builds a sphere, and
`CROSS_SHAPE` together with the `default` label builds a cross. -/
def updateCursor (s : RepState) : RepState :=
  if !s.NeedUpdate then s
  else
    let s := { s with NeedUpdate := false }
    if s.Shape = CUSTOM_SHAPE then
      match s.CustomCursor with
      | some c => { s with Cursor := some c }
      | none => s
    else if s.Shape = SPHERE_SHAPE then
      { s with Cursor := some createSphereCursor }
    else
      { s with Cursor := some createCrossCursor }

/-- The constructor: internals start with `NeedUpdate = true` and a null
`Cursor`; the shape starts at `CROSS_SHAPE` and `CustomCursor` null
(spec-modelled member defaults, the header is not under src/); the
constructor body immediately calls `UpdateCursor`. -/
def construct : RepState :=
  updateCursor { Shape := CROSS_SHAPE, NeedUpdate := true,
                 CustomCursor := none, Cursor := none }

/-- `SetCursorShape`: an out-of-range shape emits a warning diagnostic
(`vtkWarningMacro`, the returned flag) and returns with the state untouched;
a valid shape different from the current one is stored and marks dirty.
The function is total: no exception reaches the caller. -/
def setCursorShape (shape : Int) (s : RepState) : RepState × Bool :=
  if shape < CROSS_SHAPE ∨ shape > CUSTOM_SHAPE then
    (s, true)
  else if shape ≠ s.Shape then
    ({ s with Shape := shape, NeedUpdate := true }, false)
  else
    (s, false)

/-- `SetCustomCursor`: a null argument, or one identical to the stored custom
cursor, is a no-op; otherwise the reference is stored (non-owning) and, when
the current shape is `CUSTOM_SHAPE`, the dirty flag is set. (`Modified()`
only bumps the external MTime and is not modelled; pointer identity is
modelled as value equality.) -/
def setCustomCursor (r : Option Actor) (s : RepState) : RepState :=
  match r with
  | none => s
  | some c =>
    if s.CustomCursor = some c then s
    else
      { s with CustomCursor := some c,
               NeedUpdate := if s.Shape = CUSTOM_SHAPE then true else s.NeedUpdate }

/-- `2 * targetSize / (cursorBounds[1] - cursorBounds[0])` where `targetSize`
is the external pixel-length conversion (`SizeHandlesInPixels`, a base-class
collaborator parametrised as `sizeH`) evaluated at the cursor position. -/
def sizeRatioOf (sizeH : Vec3 → EFloat) (c : Actor) : EFloat :=
  EFloat.fin 2 * sizeH c.position / c.widthX

/-- The rescale step of `BuildRepresentation` (after `UpdateCursor`): abort
when the x-width of the bounds compares equal to zero; abort when the
computed ratio is NaN; otherwise multiply the scale componentwise by the
ratio and write it back. -/
def normalizeActor (sizeH : Vec3 → EFloat) (c : Actor) : Actor :=
  let targetSize := sizeH c.position
  if (c.widthX.ieeeEq (.fin 0)) then c
  else
    let r := EFloat.fin 2 * targetSize / c.widthX
    if r.isNan then c
    else { c with scale := c.scale.smul r }

/-- `BuildRepresentation`: `UpdateCursor`, then the rescale step on the
(possibly rebuilt) cursor. Dereferencing a null `Cursor` is fatal (`none`). -/
def buildRepresentation (sizeH : Vec3 → EFloat) (s : RepState) : Option RepState :=
  let s' := updateCursor s
  match s'.Cursor with
  | none => none
  | some c => some { s' with Cursor := some (normalizeActor sizeH c) }

/-- `ReleaseGraphicsResources`: forwards to the cursor actor (GPU-side state
only, no modelled field changes). Dereferencing a null `Cursor` is fatal. -/
def releaseGraphicsResources (s : RepState) : Option RepState :=
  match s.Cursor with
  | none => none
  | some _ => some s

/-- Modelled from the spec: the external renderable's own draw call returns
its own status. -/
def actorRenderOpaque (_ : Actor) : Int := 1

/-- `RenderOpaqueGeometry`: `BuildRepresentation`, then delegate the draw
call to the cursor actor and return its status. -/
def renderOpaqueGeometry (sizeH : Vec3 → EFloat) (s : RepState) :
    Option (RepState × Int) :=
  (buildRepresentation sizeH s).bind fun s' =>
    match s'.Cursor with
    | none => none
    | some c => some (s', actorRenderOpaque c)

/-- An OpenGL polydata mapper's maskable selection state: its point and cell
identifier-array names (`GetPointIdArrayName` / `GetCellIdArrayName`;
`none` models a null name). -/
structure GLMapper where
  PointIdArrayName : Option String
  CellIdArrayName : Option String
deriving DecidableEq, Repr

/-- The world visible to `WidgetInteraction`: the representation state,
whether a renderer is bound (`this->Renderer`), the renderer's mapper store
(indexed by "pointer", i.e. position), and its actor list — each actor
optionally referring to a mapper in the store (`none` models an actor whose
mapper is not a `vtkOpenGLPolyDataMapper`, so `SafeDownCast` fails). Two
actors may share one mapper, as two pointers may alias. -/
structure World where
  rep : RepState
  RendererBound : Bool
  mappers : List GLMapper
  actors : List (Option Nat)
deriving DecidableEq, Repr

/-- The masking traversal's running state: the mapper store being masked and
the two `std::map<mapper, name>` records (as association lists keyed by
mapper index). -/
structure MaskSt where
  store : List GLMapper
  pointNames : List (Nat × String)
  cellNames : List (Nat × String)
deriving DecidableEq, Repr

/-- `std::map::emplace`: insert only when the key is not yet present. -/
def emplaceName (l : List (Nat × String)) (k : Nat) (v : String) :
    List (Nat × String) :=
  if l.any (fun p => p.1 == k) then l else l ++ [(k, v)]

/-- `std::map` lookup (keys are kept distinct by `emplaceName`). -/
def lookupName (l : List (Nat × String)) (m : Nat) : Option String :=
  (l.find? (fun p => p.1 == m)).map (·.2)

/-- One step of the masking loop in `WidgetInteraction`: skip actors without
an OpenGL mapper; for a mapper with a non-null point (resp. cell) name,
record the name and clear it. Clearing an already-null name is the identity,
so the two conditional stores collapse to one write of `⟨none, none⟩`.
`recordName` is the record half: emplace the name when it is non-null. -/
def recordName (rec : List (Nat × String)) (m : Nat) (o : Option String) :
    List (Nat × String) :=
  match o with
  | some name => emplaceName rec m name
  | none => rec

/-- One step of the masking loop: see `recordName`. -/
def maskActor (st : MaskSt) (a : Option Nat) : MaskSt :=
  match a with
  | none => st
  | some m =>
    match st.store[m]? with
    | none => st
    | some gm =>
      ⟨st.store.set m ⟨none, none⟩,
       recordName st.pointNames m gm.PointIdArrayName,
       recordName st.cellNames m gm.CellIdArrayName⟩

/-- The first restoration loop: `SetPointIdArrayName` back on each recorded
mapper. -/
def restorePointNames (store : List GLMapper) (l : List (Nat × String)) :
    List GLMapper :=
  l.foldl
    (fun st p =>
      match st[p.1]? with
      | some gm => st.set p.1 { gm with PointIdArrayName := some p.2 }
      | none => st)
    store

/-- The second restoration loop: `SetCellIdArrayName` back on each recorded
mapper. -/
def restoreCellNames (store : List GLMapper) (l : List (Nat × String)) :
    List GLMapper :=
  l.foldl
    (fun st p =>
      match st[p.1]? with
      | some gm => st.set p.1 { gm with CellIdArrayName := some p.2 }
      | none => st)
    store

/-- Outcome of one `WidgetInteraction` call: a normal return with the
resulting world; a fault raised by the pick call propagating out of the
function (the world records the side effects already performed at unwind
time — there is no scope guard in the source); or a fatal null-cursor
dereference. -/
inductive WIResult where
  | ok : World → WIResult
  | fault : World → WIResult
  | crash : WIResult
deriving DecidableEq, Repr

/-- The world carried by a non-crashing outcome. -/
def WIResult.worldOf : WIResult → Option World
  | .ok w => some w
  | .fault w => some w
  | .crash => none

/-- `WidgetInteraction(newEventPos)`: return immediately when no renderer is
bound; otherwise mask every OpenGL mapper's identifier-array names, invoke
the external hardware picker (`pick`, taking the event position, the fixed
`0.0` z-hint, and the masked renderer state; it returns the picked position,
possibly NaN when no intersection was found, or raises a fault), restore the
recorded names, and set the cursor actor's position to the picked position.
The restoration loops run only on the normal path: a fault propagates before
them. -/
def widgetInteraction
    (pick : EFloat → EFloat → EFloat → List GLMapper → Except Unit Vec3)
    (ex ey : EFloat) (w : World) : WIResult :=
  if w.RendererBound = false then .ok w
  else
    let st := w.actors.foldl maskActor ⟨w.mappers, [], []⟩
    match pick ex ey (.fin 0) st.store with
    | .error _ => .fault { w with mappers := st.store }
    | .ok pos =>
      let store1 := restorePointNames st.store st.pointNames
      let store2 := restoreCellNames store1 st.cellNames
      match w.rep.Cursor with
      | none => .crash
      | some c =>
        .ok { w with mappers := store2,
                     rep := { w.rep with Cursor := some { c with position := pos } } }

/-- Worlds reachable from a freshly constructed representation through the
public surface: shape/custom-cursor setters, frame builds (also reached by
`RenderOpaqueGeometry`, whose representation effect is its inner
`BuildRepresentation`), interactions (whether the pick returns or faults),
and arbitrary external changes to the renderer-side scene. -/
inductive Reachable : World → Prop where
  | init (rb : Bool) (ms : List GLMapper) (as : List (Option Nat)) :
      Reachable ⟨construct, rb, ms, as⟩
  | setShape (w : World) (k : Int) : Reachable w →
      Reachable { w with rep := (setCursorShape k w.rep).1 }
  | setCustom (w : World) (r : Option Actor) : Reachable w →
      Reachable { w with rep := setCustomCursor r w.rep }
  | build (w : World) (f : Vec3 → EFloat) (r : RepState) : Reachable w →
      buildRepresentation f w.rep = some r → Reachable { w with rep := r }
  | interactOk (w w' : World)
      (pick : EFloat → EFloat → EFloat → List GLMapper → Except Unit Vec3)
      (ex ey : EFloat) : Reachable w →
      widgetInteraction pick ex ey w = .ok w' → Reachable w'
  | interactFault (w w' : World)
      (pick : EFloat → EFloat → EFloat → List GLMapper → Except Unit Vec3)
      (ex ey : EFloat) : Reachable w →
      widgetInteraction pick ex ey w = .fault w' → Reachable w'
  | scene (w : World) (rb : Bool) (ms : List GLMapper) (as : List (Option Nat)) :
      Reachable w →
      Reachable { w with RendererBound := rb, mappers := ms, actors := as }

/-- Relation between one mapper's pre-call identifier-array name `origF`,
its current name `curF`, and a record `rec` at key `m`: either the name is
recorded (then the original was that recorded name and the current one is
cleared) or it is unrecorded (then the current name is still the original). -/
def FieldRel (rec : List (Nat × String)) (m : Nat) (origF curF : Option String) : Prop :=
  match lookupName rec m with
  | some v => origF = some v ∧ curF = none
  | none => curF = origF

/-- Invariant of the masking traversal relative to the pre-call mapper store
`store0`: the store keeps its length; the recorded keys are in range and
pairwise distinct per record; and every mapper either still carries its
original name (when unrecorded) or has been cleared with its original name
recorded. It is established by the empty records and preserved by each
`maskActor` step. -/
def MaskInv (store0 : List GLMapper) (st : MaskSt) : Prop :=
  st.store.length = store0.length ∧
  (∀ p ∈ st.pointNames, p.1 < store0.length) ∧
  (∀ p ∈ st.cellNames, p.1 < store0.length) ∧
  (st.pointNames.map Prod.fst).Nodup ∧
  (st.cellNames.map Prod.fst).Nodup ∧
  ∀ m gm0, store0[m]? = some gm0 →
    ∃ gm, st.store[m]? = some gm ∧
      FieldRel st.pointNames m gm0.PointIdArrayName gm.PointIdArrayName ∧
      FieldRel st.cellNames m gm0.CellIdArrayName gm.CellIdArrayName

/-! Concrete sample objects used to instantiate the theorems below. -/

/-- A fixed camera/viewport: the pixel-length conversion returns 5 at every
position. -/
def camConst : Vec3 → EFloat := fun _ => .fin 5

/-- A degenerate camera/viewport whose pixel-length conversion is NaN (as
after a no-intersection pick propagated a NaN position into it). -/
def camNan : Vec3 → EFloat := fun _ => .nan

/-- An actor with zero-extent geometry (degenerate bounds). -/
def flatActor : Actor :=
  { position := ⟨.fin 0, .fin 0, .fin 0⟩
    scale := ⟨.fin 1, .fin 1, .fin 1⟩
    baseXmin := .fin 1
    baseXmax := .fin 1 }

/-- A sample custom cursor actor. -/
def customActor : Actor :=
  { position := ⟨.fin 3, .fin 4, .fin 5⟩
    scale := ⟨.fin 2, .fin 2, .fin 2⟩
    baseXmin := .fin 0
    baseXmax := .fin 4 }

/-- A sample renderer-side scene: three mappers (two with named identifier
arrays), actors aliasing mapper 0, an actor without an OpenGL mapper, and a
dangling-free list layout. -/
def sampleWorld : World :=
  { rep := construct
    RendererBound := true
    mappers := [⟨some "opids", some "ocids"⟩, ⟨none, some "c2"⟩, ⟨some "p3", none⟩]
    actors := [some 0, none, some 1, some 0, some 2] }

/-- A pick service that always faults (models the pick call raising). -/
def faultingPick : EFloat → EFloat → EFloat → List GLMapper → Except Unit Vec3 :=
  fun _ _ _ _ => .error ()

/-- A pick service that finds no intersection: it returns normally with a
NaN position, the hardware picker's documented no-intersection behavior. -/
def noHitPick : EFloat → EFloat → EFloat → List GLMapper → Except Unit Vec3 :=
  fun _ _ _ _ => .ok ⟨.nan, .nan, .nan⟩

/-! ## Theorems -/

/-- Claim C2: for every integer `k` outside the valid shape-kind range,
`SetShape(k)` leaves `shapeKind`, the dirty flag and `activeRenderable`
unchanged, propagates no exception to the caller (the call returns normally
with the full state untouched), and surfaces only a warning-level
diagnostic (the returned flag). -/
theorem setCursorShape_invalid_noop (k : Int) (s : RepState)
    (h : k < CROSS_SHAPE ∨ k > CUSTOM_SHAPE) :
    setCursorShape k s = (s, true) := by
  simp [setCursorShape, h]

/-- Witness for C2 at the spec's sample invalid kinds `-1` and `99`. -/
theorem setCursorShape_invalid_noop_sample :
    setCursorShape (-1) construct = (construct, true) ∧
    setCursorShape 99 construct = (construct, true) :=
  ⟨setCursorShape_invalid_noop (-1) construct (by decide),
   setCursorShape_invalid_noop 99 construct (by decide)⟩

/-- Claim C3: `UpdateCursor` is a no-op when the dirty flag is clear; when
dirty it dispatches on the shape — Custom adopts the stored custom
renderable if present and otherwise leaves the active renderable unchanged,
Sphere builds a sphere cursor, and any other value builds a cross cursor —
and the dirty flag is clear after every call. -/
theorem updateCursor_dispatch (s : RepState) :
    (s.NeedUpdate = false → updateCursor s = s) ∧
    (s.NeedUpdate = true → s.Shape = CUSTOM_SHAPE → s.CustomCursor = none →
      updateCursor s = { s with NeedUpdate := false }) ∧
    (∀ c, s.NeedUpdate = true → s.Shape = CUSTOM_SHAPE → s.CustomCursor = some c →
      updateCursor s = { s with NeedUpdate := false, Cursor := some c }) ∧
    (s.NeedUpdate = true → s.Shape = SPHERE_SHAPE →
      updateCursor s = { s with NeedUpdate := false, Cursor := some createSphereCursor }) ∧
    (s.NeedUpdate = true → s.Shape ≠ CUSTOM_SHAPE → s.Shape ≠ SPHERE_SHAPE →
      updateCursor s = { s with NeedUpdate := false, Cursor := some createCrossCursor }) ∧
    (updateCursor s).NeedUpdate = false := by
  obtain ⟨sh, nu, cc, cur⟩ := s
  refine ⟨?_, ?_, ?_, ?_, ?_, ?_⟩
  · intro h; subst h; simp [updateCursor]
  · intro _ h2 h3; simp_all [updateCursor]
  · intro c _ h2 h3; simp_all [updateCursor]
  · intro _ h2; simp_all [updateCursor, SPHERE_SHAPE, CUSTOM_SHAPE]
  · intro _ h2 h3; simp_all [updateCursor]
  · cases nu
    · simp [updateCursor]
    · by_cases h2 : sh = CUSTOM_SHAPE
      · cases cc <;> simp [updateCursor, h2]
      · by_cases h3 : sh = SPHERE_SHAPE <;>
          simp_all [updateCursor, SPHERE_SHAPE, CUSTOM_SHAPE]

/-- Witness for C3: a dirty Custom-shape state with no custom renderable
keeps the previously built cursor. -/
theorem updateCursor_dispatch_sample :
    updateCursor { Shape := CUSTOM_SHAPE, NeedUpdate := true,
                   CustomCursor := none, Cursor := some createCrossCursor }
      = { Shape := CUSTOM_SHAPE, NeedUpdate := false,
          CustomCursor := none, Cursor := some createCrossCursor } :=
  (updateCursor_dispatch _).2.1 rfl rfl rfl

/-- Claim C4: for every renderable whose bounds satisfy
`xmax - xmin == 0`, the rescale step of `BuildRepresentation` aborts before
dividing, leaving the renderable (in particular its scale) unchanged: the
ratio division by the width is guarded behind this test and is not reached
on a zero divisor. -/
theorem normalize_zero_width_noop (f : Vec3 → EFloat) (c : Actor)
    (h : c.widthX.ieeeEq (.fin 0) = true) :
    normalizeActor f c = c := by
  simp [normalizeActor, h]

unseal Rat.mul Rat.inv Rat.add Rat.sub in
/-- Witness for C4 on a zero-extent actor under a working camera. -/
theorem normalize_zero_width_noop_sample :
    normalizeActor camConst flatActor = flatActor :=
  normalize_zero_width_noop camConst flatActor (by decide)

/-- Claim C5: whenever the computed ratio `2 * targetSize / width` is
non-finite (as after a no-intersection pick whose non-finite position
propagated into the pixel-length conversion), the rescale step aborts and
leaves the renderable unchanged. -/
theorem normalize_nonfinite_ratio_noop (f : Vec3 → EFloat) (c : Actor)
    (h : (sizeRatioOf f c).isNan = true) :
    normalizeActor f c = c := by
  unfold normalizeActor
  split
  · rfl
  · unfold sizeRatioOf at h
    simp [h]

unseal Rat.mul Rat.inv Rat.add Rat.sub in
/-- Witness for C5: a NaN pixel-length conversion (the propagated result of
a no-intersection pick) makes the ratio NaN and the rescale a no-op. -/
theorem normalize_nonfinite_ratio_noop_sample :
    normalizeActor camNan createCrossCursor = createCrossCursor :=
  normalize_nonfinite_ratio_noop camNan createCrossCursor (by decide)

/-! Helper lemmas about `EFloat` arithmetic and the rescale step. -/

theorem EFloat.add_eq (a b : EFloat) : a + b = EFloat.add a b := rfl

theorem EFloat.sub_eq (a b : EFloat) : a - b = EFloat.sub a b := rfl

theorem EFloat.mul_eq (a b : EFloat) : a * b = EFloat.mul a b := rfl

theorem EFloat.div_eq (a b : EFloat) : a / b = EFloat.div a b := rfl

theorem EFloat.mul_fin_one (x : EFloat) : EFloat.mul x (.fin 1) = x := by
  cases x <;> simp [EFloat.mul]

theorem Vec3.smul_fin_one (v : Vec3) : v.smul (.fin 1) = v := by
  cases v
  simp [Vec3.smul, EFloat.mul_eq, EFloat.mul_fin_one]

theorem Actor.widthX_mk (px py pz sx sy sz b0 b1 : EFloat) :
    (Actor.mk ⟨px, py, pz⟩ ⟨sx, sy, sz⟩ b0 b1).widthX
      = EFloat.sub (EFloat.add px (EFloat.mul b1 sx)) (EFloat.add px (EFloat.mul b0 sx)) :=
  rfl

/-- The rescale step in its success regime: finite nonzero width and finite
target size multiply the scale by the finite ratio `2*t/w`. -/
theorem normalizeActor_eq (f : Vec3 → EFloat) (c : Actor) (w t : ℚ)
    (hw : c.widthX = .fin w) (hw0 : w ≠ 0) (ht : f c.position = .fin t) :
    normalizeActor f c = { c with scale := c.scale.smul (.fin (2 * t / w)) } := by
  simp [normalizeActor, hw, ht, EFloat.ieeeEq, EFloat.mul_eq, EFloat.div_eq,
    EFloat.mul, EFloat.div, EFloat.isNan, hw0]

/-- The ratio in the same regime. -/
theorem sizeRatioOf_eq (f : Vec3 → EFloat) (c : Actor) (w t : ℚ)
    (hw : c.widthX = .fin w) (hw0 : w ≠ 0) (ht : f c.position = .fin t) :
    sizeRatioOf f c = .fin (2 * t / w) := by
  simp [sizeRatioOf, hw, ht, EFloat.mul_eq, EFloat.div_eq, EFloat.mul, EFloat.div, hw0]

/-- Claim C6: under a fixed camera, the rescale step is idempotent — for a
renderable with non-degenerate (finite, nonzero-width) bounds and a finite
nonzero target size, a second `Normalize` with unchanged position and camera
yields the same scale as the first, and the ratio computed on the second
call is exactly 1 (the bounds already match the target size). -/
theorem normalize_idempotent_fixed_camera (f : Vec3 → EFloat) (c : Actor) (w t : ℚ)
    (hw : c.widthX = .fin w) (hw0 : w ≠ 0)
    (ht : f c.position = .fin t) (ht0 : t ≠ 0) :
    normalizeActor f (normalizeActor f c) = normalizeActor f c ∧
    sizeRatioOf f (normalizeActor f c) = .fin 1 := by
  obtain ⟨⟨px, py, pz⟩, ⟨sx, sy, sz⟩, b0, b1⟩ := c
  rw [Actor.widthX_mk] at hw
  -- a finite width forces the x-position, x-scale and x-extent to be finite
  cases px <;> cases b1 <;> cases sx <;> cases b0 <;>
    simp only [EFloat.add, EFloat.sub, EFloat.mul] at hw <;>
    try exact EFloat.noConfusion hw
  rename_i p a1 s a0
  rw [EFloat.fin.injEq] at hw
  have hwX : (Actor.mk ⟨.fin p, py, pz⟩ ⟨.fin s, sy, sz⟩ (.fin a0) (.fin a1)).widthX
      = .fin w := by
    rw [Actor.widthX_mk]
    simp [EFloat.add, EFloat.sub, EFloat.mul, hw]
  have h1 := normalizeActor_eq f _ w t hwX hw0 ht
  have h2t0 : (2 : ℚ) * t ≠ 0 := mul_ne_zero two_ne_zero ht0
  -- the width after the first rescale is exactly twice the target size
  have hw1 : (normalizeActor f
      (Actor.mk ⟨.fin p, py, pz⟩ ⟨.fin s, sy, sz⟩ (.fin a0) (.fin a1))).widthX
      = .fin (2 * t) := by
    rw [h1]
    show EFloat.sub (EFloat.add (.fin p) (EFloat.mul (.fin a1) (EFloat.mul (.fin s) (.fin (2 * t / w)))))
      (EFloat.add (.fin p) (EFloat.mul (.fin a0) (EFloat.mul (.fin s) (.fin (2 * t / w))))) = .fin (2 * t)
    simp only [EFloat.add, EFloat.sub, EFloat.mul, EFloat.fin.injEq]
    have hk : p + a1 * (s * (2 * t / w)) - (p + a0 * (s * (2 * t / w)))
        = (p + a1 * s - (p + a0 * s)) * (2 * t / w) := by ring
    rw [hk, hw]
    field_simp
  have ht1 : f (normalizeActor f
      (Actor.mk ⟨.fin p, py, pz⟩ ⟨.fin s, sy, sz⟩ (.fin a0) (.fin a1))).position = .fin t := by
    rw [h1]
    exact ht
  have h2 := normalizeActor_eq f _ (2 * t) t hw1 h2t0 ht1
  have hone : (2 : ℚ) * t / (2 * t) = 1 := div_self h2t0
  rw [hone] at h2
  constructor
  · rw [h2, h1]
    simp [Vec3.smul_fin_one]
  · have h3 := sizeRatioOf_eq f _ (2 * t) t hw1 h2t0 ht1
    rw [hone] at h3
    exact h3

unseal Rat.mul Rat.inv Rat.add Rat.sub in
/-- Witness for C6: the cross cursor (width 2) under a camera with constant
pixel-length conversion 5. -/
theorem normalize_idempotent_fixed_camera_sample :
    normalizeActor camConst (normalizeActor camConst createCrossCursor)
      = normalizeActor camConst createCrossCursor ∧
    sizeRatioOf camConst (normalizeActor camConst createCrossCursor) = .fin 1 :=
  normalize_idempotent_fixed_camera camConst createCrossCursor 2 5
    (by decide) (by decide) (by decide) (by decide)

/-- Claim C8: `SetCustomCursor(r)` is a no-op when `r` is null or identical
to the stored custom renderable; otherwise it stores `r` (non-owning) and
sets the dirty flag exactly when the current shape is Custom (otherwise the
flag keeps its prior value). -/
theorem setCustomCursor_cases (r : Option Actor) (s : RepState) :
    (r = none → setCustomCursor r s = s) ∧
    (∀ c, r = some c → s.CustomCursor = some c → setCustomCursor r s = s) ∧
    (∀ c, r = some c → s.CustomCursor ≠ some c →
      setCustomCursor r s =
        { s with CustomCursor := some c,
                 NeedUpdate := if s.Shape = CUSTOM_SHAPE then true else s.NeedUpdate }) := by
  refine ⟨?_, ?_, ?_⟩ <;>
    · intros
      subst_vars
      simp_all [setCustomCursor]

/-- Witness for C8: storing a fresh custom cursor while the shape is Cross
stores the reference and leaves the clean flag clear. -/
theorem setCustomCursor_cases_sample :
    setCustomCursor (some customActor) construct
      = { construct with CustomCursor := some customActor, NeedUpdate := false } := by
  have h := (setCustomCursor_cases (some customActor) construct).2.2 customActor rfl
    (by decide)
  simpa using h

/-! Helper lemmas for the identifier-array mask/restore round trip. -/

theorem lookupName_nil (m : Nat) : lookupName [] m = none := rfl

theorem not_mem_of_lookupName_none {l : List (Nat × String)} {k : Nat}
    (h : lookupName l k = none) : k ∉ l.map Prod.fst := by
  intro hk
  obtain ⟨p, hp, rfl⟩ := List.mem_map.mp hk
  unfold lookupName at h
  rw [Option.map_eq_none', List.find?_eq_none] at h
  exact h p hp (by simp)

theorem lookupName_of_not_mem {l : List (Nat × String)} {k : Nat}
    (h : k ∉ l.map Prod.fst) : lookupName l k = none := by
  unfold lookupName
  rw [Option.map_eq_none', List.find?_eq_none]
  intro p hp hpk
  exact h (List.mem_map.mpr ⟨p, hp, by simpa using hpk⟩)

theorem lookupName_cons (k : Nat) (v : String) (tl : List (Nat × String)) (m : Nat) :
    lookupName ((k, v) :: tl) m = if k = m then some v else lookupName tl m := by
  by_cases h : k = m
  · subst h
    simp [lookupName]
  · simp [lookupName, List.find?_cons_of_neg, h]

theorem emplaceName_eq_append {l : List (Nat × String)} {k : Nat} (v : String)
    (h : lookupName l k = none) : emplaceName l k v = l ++ [(k, v)] := by
  unfold emplaceName
  rw [if_neg]
  intro hany
  obtain ⟨p, hp, hpk⟩ := List.any_eq_true.mp hany
  unfold lookupName at h
  rw [Option.map_eq_none', List.find?_eq_none] at h
  exact h p hp hpk

theorem lookupName_append_single_self {l : List (Nat × String)} {k : Nat} (v : String)
    (h : lookupName l k = none) : lookupName (l ++ [(k, v)]) k = some v := by
  unfold lookupName at h ⊢
  rw [List.find?_append]
  rw [Option.map_eq_none'] at h
  rw [h]
  simp

theorem lookupName_append_single_ne {l : List (Nat × String)} {k : Nat} (v : String)
    {m : Nat} (h : m ≠ k) : lookupName (l ++ [(k, v)]) m = lookupName l m := by
  unfold lookupName
  rw [List.find?_append]
  have hkm : (k == m) = false := beq_eq_false_iff_ne.mpr (Ne.symm h)
  have : List.find? (fun p => p.1 == m) [(k, v)] = none := by
    simp [List.find?, hkm]
  rw [this, Option.or_none]

theorem restorePointNames_length (l : List (Nat × String)) (store : List GLMapper) :
    (restorePointNames store l).length = store.length := by
  induction l generalizing store with
  | nil => rfl
  | cons hd tl ih =>
    rw [show restorePointNames store (hd :: tl) = restorePointNames
        (match store[hd.1]? with
         | some gm => store.set hd.1 { gm with PointIdArrayName := some hd.2 }
         | none => store) tl from rfl]
    cases h : store[hd.1]? <;> simp [h, ih]

theorem restoreCellNames_length (l : List (Nat × String)) (store : List GLMapper) :
    (restoreCellNames store l).length = store.length := by
  induction l generalizing store with
  | nil => rfl
  | cons hd tl ih =>
    rw [show restoreCellNames store (hd :: tl) = restoreCellNames
        (match store[hd.1]? with
         | some gm => store.set hd.1 { gm with CellIdArrayName := some hd.2 }
         | none => store) tl from rfl]
    cases h : store[hd.1]? <;> simp [h, ih]

theorem restorePointNames_getElem (l : List (Nat × String)) (store : List GLMapper)
    (hnd : (l.map Prod.fst).Nodup) (hb : ∀ p ∈ l, p.1 < store.length) (m : Nat) :
    (restorePointNames store l)[m]? =
      match lookupName l m with
      | some v => store[m]?.map (fun gm => { gm with PointIdArrayName := some v })
      | none => store[m]? := by
  induction l generalizing store with
  | nil => simp [restorePointNames, lookupName_nil]
  | cons hd tl ih =>
    obtain ⟨k, v⟩ := hd
    have hk : k < store.length := hb (k, v) (List.mem_cons_self _ _)
    have hkE : store[k]? = some store[k] := List.getElem?_eq_getElem hk
    have hstep : restorePointNames store ((k, v) :: tl)
        = restorePointNames (store.set k { store[k] with PointIdArrayName := some v }) tl := by
      simp [restorePointNames, List.foldl_cons, hkE]
    have hnd' : (tl.map Prod.fst).Nodup := (List.nodup_cons.mp hnd).2
    have hknm : k ∉ tl.map Prod.fst := (List.nodup_cons.mp hnd).1
    have hb' : ∀ p ∈ tl, p.1 <
        (store.set k { store[k] with PointIdArrayName := some v }).length := by
      intro p hp
      simpa using hb p (List.mem_cons_of_mem _ hp)
    rw [hstep, ih _ hnd' hb', lookupName_cons]
    by_cases hm : k = m
    · subst hm
      rw [if_pos rfl, lookupName_of_not_mem hknm]
      simp [List.getElem?_set_self hk, hkE]
    · rw [if_neg hm, List.getElem?_set_ne hm]

theorem restoreCellNames_getElem (l : List (Nat × String)) (store : List GLMapper)
    (hnd : (l.map Prod.fst).Nodup) (hb : ∀ p ∈ l, p.1 < store.length) (m : Nat) :
    (restoreCellNames store l)[m]? =
      match lookupName l m with
      | some v => store[m]?.map (fun gm => { gm with CellIdArrayName := some v })
      | none => store[m]? := by
  induction l generalizing store with
  | nil => simp [restoreCellNames, lookupName_nil]
  | cons hd tl ih =>
    obtain ⟨k, v⟩ := hd
    have hk : k < store.length := hb (k, v) (List.mem_cons_self _ _)
    have hkE : store[k]? = some store[k] := List.getElem?_eq_getElem hk
    have hstep : restoreCellNames store ((k, v) :: tl)
        = restoreCellNames (store.set k { store[k] with CellIdArrayName := some v }) tl := by
      simp [restoreCellNames, List.foldl_cons, hkE]
    have hnd' : (tl.map Prod.fst).Nodup := (List.nodup_cons.mp hnd).2
    have hknm : k ∉ tl.map Prod.fst := (List.nodup_cons.mp hnd).1
    have hb' : ∀ p ∈ tl, p.1 <
        (store.set k { store[k] with CellIdArrayName := some v }).length := by
      intro p hp
      simpa using hb p (List.mem_cons_of_mem _ hp)
    rw [hstep, ih _ hnd' hb', lookupName_cons]
    by_cases hm : k = m
    · subst hm
      rw [if_pos rfl, lookupName_of_not_mem hknm]
      simp [List.getElem?_set_self hk, hkE]
    · rw [if_neg hm, List.getElem?_set_ne hm]

/-- Two mappers with equal fields are equal. -/
theorem GLMapper.ext_of (a b : GLMapper)
    (h1 : a.PointIdArrayName = b.PointIdArrayName)
    (h2 : a.CellIdArrayName = b.CellIdArrayName) : a = b := by
  cases a
  cases b
  simp_all

/-- Recording one mapper's masked field preserves the per-key relation at
its own key: the field is cleared and its pre-call name recoverable. -/
theorem recordName_at_self (l : List (Nat × String)) (m : Nat) (oldF gF : Option String)
    (hpx : FieldRel l m oldF gF) : FieldRel (recordName l m gF) m oldF none := by
  cases gF with
  | none => exact hpx
  | some name =>
    have hlp : lookupName l m = none := by
      unfold FieldRel at hpx
      cases hl : lookupName l m
      · rfl
      · rw [hl] at hpx
        exact absurd hpx.2 (by simp)
    unfold FieldRel at hpx ⊢
    rw [hlp] at hpx
    simp only [recordName]
    rw [emplaceName_eq_append name hlp, lookupName_append_single_self name hlp]
    exact ⟨hpx.symm, by trivial⟩

/-- Recording one mapper's masked field leaves every other key's lookup
unchanged. -/
theorem recordName_lookup_ne (l : List (Nat × String)) (m : Nat) (gF : Option String)
    {m' : Nat} (h : m' ≠ m)
    (hcond : ∀ name, gF = some name → lookupName l m = none) :
    lookupName (recordName l m gF) m' = lookupName l m' := by
  cases gF with
  | none => rfl
  | some name =>
    simp only [recordName]
    rw [emplaceName_eq_append name (hcond name rfl),
      lookupName_append_single_ne name h]

/-- Recording keeps the record's keys in range. -/
theorem recordName_bounds (l : List (Nat × String)) (m : Nat) (gF : Option String)
    (n : Nat) (hcond : ∀ name, gF = some name → lookupName l m = none)
    (hb : ∀ p ∈ l, p.1 < n) (hmn : m < n) :
    ∀ p ∈ recordName l m gF, p.1 < n := by
  cases gF with
  | none => exact hb
  | some name =>
    simp only [recordName]
    rw [emplaceName_eq_append name (hcond name rfl)]
    intro p hp
    rcases List.mem_append.mp hp with h1 | h1
    · exact hb p h1
    · have : p = (m, name) := by simpa using h1
      rw [this]
      exact hmn

/-- Recording keeps the record's keys pairwise distinct. -/
theorem recordName_nodup (l : List (Nat × String)) (m : Nat) (gF : Option String)
    (hcond : ∀ name, gF = some name → lookupName l m = none)
    (hnd : (l.map Prod.fst).Nodup) :
    ((recordName l m gF).map Prod.fst).Nodup := by
  cases gF with
  | none => exact hnd
  | some name =>
    simp only [recordName]
    rw [emplaceName_eq_append name (hcond name rfl)]
    have hkeys : ((l ++ [(m, name)]).map Prod.fst) = l.map Prod.fst ++ [m] := by
      simp
    rw [hkeys, List.nodup_append]
    refine ⟨hnd, List.nodup_singleton _, ?_⟩
    intro a ha hb
    have : a = m := by simpa using hb
    exact not_mem_of_lookupName_none (hcond name rfl) (this ▸ ha)

/-- The masking invariant holds before the traversal starts. -/
theorem maskInv_init (store0 : List GLMapper) : MaskInv store0 ⟨store0, [], []⟩ := by
  refine ⟨rfl, by simp, by simp, by simp, by simp, ?_⟩
  intro m gm0 h
  exact ⟨gm0, h, by simp [FieldRel, lookupName_nil], by simp [FieldRel, lookupName_nil]⟩

/-- Each step of the masking traversal preserves the invariant. -/
theorem maskInv_step (store0 : List GLMapper) (st : MaskSt) (a : Option Nat)
    (h : MaskInv store0 st) : MaskInv store0 (maskActor st a) := by
  obtain ⟨hlen, hpb, hcb, hpn, hcn, hinv⟩ := h
  cases a with
  | none => exact ⟨hlen, hpb, hcb, hpn, hcn, hinv⟩
  | some m =>
    cases hm : st.store[m]? with
    | none =>
      simp only [maskActor, hm]
      exact ⟨hlen, hpb, hcb, hpn, hcn, hinv⟩
    | some gm =>
      have hmlt : m < st.store.length := by
        by_contra hcon
        rw [List.getElem?_eq_none (Nat.le_of_not_lt hcon)] at hm
        exact Option.noConfusion hm
      have hmlt0 : m < store0.length := hlen ▸ hmlt
      have hm0 : store0[m]? = some store0[m] := List.getElem?_eq_getElem hmlt0
      obtain ⟨gmx, hgmx, hpx0, hcx0⟩ := hinv m store0[m] hm0
      rw [hm] at hgmx
      injection hgmx with hgg
      subst hgg
      have hlp : ∀ name, gm.PointIdArrayName = some name →
          lookupName st.pointNames m = none := by
        intro name hname
        unfold FieldRel at hpx0
        cases hl : lookupName st.pointNames m with
        | none => rfl
        | some v =>
          rw [hl, hname] at hpx0
          exact absurd hpx0.2 (by simp)
      have hlc : ∀ name, gm.CellIdArrayName = some name →
          lookupName st.cellNames m = none := by
        intro name hname
        unfold FieldRel at hcx0
        cases hl : lookupName st.cellNames m with
        | none => rfl
        | some v =>
          rw [hl, hname] at hcx0
          exact absurd hcx0.2 (by simp)
      simp only [maskActor, hm]
      refine ⟨by simpa using hlen,
        recordName_bounds _ m _ _ hlp hpb hmlt0,
        recordName_bounds _ m _ _ hlc hcb hmlt0,
        recordName_nodup _ m _ hlp hpn,
        recordName_nodup _ m _ hlc hcn, ?_⟩
      intro m' gm0' hm0'
      by_cases hmm : m' = m
      · subst hmm
        obtain ⟨gmy, hgmy, hpy, hcy⟩ := hinv m' gm0' hm0'
        rw [hm] at hgmy
        injection hgmy with hgy
        subst hgy
        refine ⟨⟨none, none⟩, by rw [List.getElem?_set_self hmlt], ?_, ?_⟩
        · exact recordName_at_self st.pointNames m' gm0'.PointIdArrayName
            gm.PointIdArrayName hpy
        · exact recordName_at_self st.cellNames m' gm0'.CellIdArrayName
            gm.CellIdArrayName hcy
      · obtain ⟨gmy, hgmy, hpy, hcy⟩ := hinv m' gm0' hm0'
        have e1 : (st.store.set m ⟨none, none⟩)[m']? = st.store[m']? :=
          List.getElem?_set_ne (fun e => hmm e.symm)
        refine ⟨gmy, by rw [e1]; exact hgmy, ?_, ?_⟩
        · unfold FieldRel at hpy ⊢
          rw [recordName_lookup_ne st.pointNames m gm.PointIdArrayName hmm hlp]
          exact hpy
        · unfold FieldRel at hcy ⊢
          rw [recordName_lookup_ne st.cellNames m gm.CellIdArrayName hmm hlc]
          exact hcy

/-- The whole masking traversal preserves the invariant. -/
theorem maskInv_fold (store0 : List GLMapper) (actors : List (Option Nat))
    (st : MaskSt) (h : MaskInv store0 st) :
    MaskInv store0 (actors.foldl maskActor st) := by
  induction actors generalizing st with
  | nil => exact h
  | cons hd tl ih => exact ih _ (maskInv_step store0 st hd h)

/-- Running both restoration loops on a state satisfying the invariant
recovers the pre-call store exactly. -/
theorem maskInv_restore (store0 : List GLMapper) (st : MaskSt)
    (h : MaskInv store0 st) :
    restoreCellNames (restorePointNames st.store st.pointNames) st.cellNames = store0 := by
  obtain ⟨hlen, hpb, hcb, hpn, hcn, hinv⟩ := h
  have hpb' : ∀ p ∈ st.pointNames, p.1 < st.store.length := by
    intro p hp
    rw [hlen]
    exact hpb p hp
  have hcb' : ∀ p ∈ st.cellNames, p.1 < (restorePointNames st.store st.pointNames).length := by
    intro p hp
    rw [restorePointNames_length, hlen]
    exact hcb p hp
  apply List.ext_getElem?
  intro m
  rw [restoreCellNames_getElem _ _ hcn hcb' m,
    restorePointNames_getElem _ _ hpn hpb' m]
  by_cases hmlt : m < store0.length
  · have hm0 : store0[m]? = some store0[m] := List.getElem?_eq_getElem hmlt
    obtain ⟨gm, hgm, hp, hc⟩ := hinv m store0[m] hm0
    rw [hm0, hgm]
    unfold FieldRel at hp hc
    cases hlpm : lookupName st.pointNames m with
    | some vp =>
      rw [hlpm] at hp
      cases hlcm : lookupName st.cellNames m with
      | some vc =>
        rw [hlcm] at hc
        simp only [Option.map_some']
        refine congrArg some (GLMapper.ext_of _ _ ?_ ?_)
        · rw [hp.1]
        · rw [hc.1]
      | none =>
        rw [hlcm] at hc
        simp only [Option.map_some']
        refine congrArg some (GLMapper.ext_of _ _ ?_ ?_)
        · rw [hp.1]
        · exact hc
    | none =>
      rw [hlpm] at hp
      cases hlcm : lookupName st.cellNames m with
      | some vc =>
        rw [hlcm] at hc
        simp only [Option.map_some']
        refine congrArg some (GLMapper.ext_of _ _ ?_ ?_)
        · exact hp
        · rw [hc.1]
      | none =>
        rw [hlcm] at hc
        refine congrArg some (GLMapper.ext_of _ _ ?_ ?_)
        · exact hp
        · exact hc
  · have h0 : store0[m]? = none := List.getElem?_eq_none (Nat.le_of_not_lt hmlt)
    have h1 : st.store[m]? = none := by
      rw [List.getElem?_eq_none]
      rw [hlen]
      exact Nat.le_of_not_lt hmlt
    rw [h0, h1]
    cases lookupName st.pointNames m <;> cases lookupName st.cellNames m <;> rfl

/-- The normal-return behavior of `WidgetInteraction` with a bound renderer:
the mapper names are restored to their pre-call values (mask/restore round
trip) and the only representation change is the cursor position, set to the
position the pick returned. -/
theorem widgetInteraction_ok_eq
    (pick : EFloat → EFloat → EFloat → List GLMapper → Except Unit Vec3)
    (ex ey : EFloat) (w : World) (c : Actor) (pos : Vec3)
    (hb : w.RendererBound = true)
    (hc : w.rep.Cursor = some c)
    (hp : pick ex ey (.fin 0)
      (w.actors.foldl maskActor ⟨w.mappers, [], []⟩).store = .ok pos) :
    widgetInteraction pick ex ey w =
      .ok { w with rep := { w.rep with Cursor := some { c with position := pos } } } := by
  have hres := maskInv_restore w.mappers (w.actors.foldl maskActor ⟨w.mappers, [], []⟩)
    (maskInv_fold w.mappers w.actors ⟨w.mappers, [], []⟩ (maskInv_init w.mappers))
  simp [widgetInteraction, hb, hp, hc, hres]

/-- The no-renderer behavior of `WidgetInteraction`: an immediate return. -/
theorem widgetInteraction_unbound_eq
    (pick : EFloat → EFloat → EFloat → List GLMapper → Except Unit Vec3)
    (ex ey : EFloat) (w : World) (hb : w.RendererBound = false) :
    widgetInteraction pick ex ey w = .ok w := by
  simp [widgetInteraction, hb]

/-- Claim C1 (amended): after every `Pick` call that RETURNS NORMALLY —
whether or not an intersection was found (the position may be NaN) — every
mapper's point- and cell-identifier array names equal their pre-call
values. The fault-safety part of the claim does not hold (see the
counterexample): the restoration loops run only after the pick call, with
no scope guard, so a faulting pick skips them. -/
theorem pick_restores_mapper_names
    (pick : EFloat → EFloat → EFloat → List GLMapper → Except Unit Vec3)
    (ex ey : EFloat) (w : World) (c : Actor) (pos : Vec3)
    (hc : w.rep.Cursor = some c)
    (hp : pick ex ey (.fin 0)
      (w.actors.foldl maskActor ⟨w.mappers, [], []⟩).store = .ok pos) :
    ∃ w', widgetInteraction pick ex ey w = .ok w' ∧ w'.mappers = w.mappers := by
  cases hb : w.RendererBound with
  | false => exact ⟨w, widgetInteraction_unbound_eq pick ex ey w hb, rfl⟩
  | true => exact ⟨_, widgetInteraction_ok_eq pick ex ey w c pos hb hc hp, rfl⟩

/-- Witness for the amended C1: a no-intersection pick (normal return, NaN
position) leaves all mapper names as before the call. -/
theorem pick_restores_mapper_names_sample :
    ∃ w', widgetInteraction noHitPick (.fin 0) (.fin 0) sampleWorld = .ok w' ∧
      w'.mappers = sampleWorld.mappers :=
  pick_restores_mapper_names noHitPick (.fin 0) (.fin 0) sampleWorld
    createCrossCursor ⟨.nan, .nan, .nan⟩ rfl rfl

/-- Counterexample to C1 as stated: when the pick call raises a fault, the
function unwinds before the restoration loops, so the masked (cleared)
identifier-array names leak past the call — they do not equal their
pre-call values. -/
theorem pick_fault_leaks_mask :
    (widgetInteraction faultingPick (.fin 0) (.fin 0) sampleWorld).worldOf.map
        World.mappers
      = some [⟨none, none⟩, ⟨none, none⟩, ⟨none, none⟩] ∧
    sampleWorld.mappers ≠ [⟨none, none⟩, ⟨none, none⟩, ⟨none, none⟩] := by
  decide

/-- Claim C7: `WidgetInteraction` is a no-op for every screen position when
no renderer is bound; when a renderer is bound, it sets the cursor actor's
position to exactly the position returned by the pick service — including
non-finite components — and returns normally rather than converting a
non-finite result into an error. -/
theorem widgetInteraction_position
    (pick : EFloat → EFloat → EFloat → List GLMapper → Except Unit Vec3)
    (ex ey : EFloat) (w : World) (c : Actor) (pos : Vec3)
    (hc : w.rep.Cursor = some c)
    (hp : pick ex ey (.fin 0)
      (w.actors.foldl maskActor ⟨w.mappers, [], []⟩).store = .ok pos) :
    (w.RendererBound = false → widgetInteraction pick ex ey w = .ok w) ∧
    (w.RendererBound = true →
      ∃ w', widgetInteraction pick ex ey w = .ok w' ∧
        w'.rep.Cursor = some { c with position := pos }) := by
  constructor
  · intro hb
    exact widgetInteraction_unbound_eq pick ex ey w hb
  · intro hb
    exact ⟨_, widgetInteraction_ok_eq pick ex ey w c pos hb hc hp, rfl⟩

/-- Witness for C7: a no-intersection pick repositions the cursor at the
NaN position as returned. -/
theorem widgetInteraction_position_sample :
    ∃ w', widgetInteraction noHitPick (.fin 0) (.fin 0) sampleWorld = .ok w' ∧
      w'.rep.Cursor = some { createCrossCursor with position := ⟨.nan, .nan, .nan⟩ } :=
  (widgetInteraction_position noHitPick (.fin 0) (.fin 0) sampleWorld
    createCrossCursor ⟨.nan, .nan, .nan⟩ rfl rfl).2 rfl

/-- Claim C10: a pick with a bound renderer changes only the cursor actor's
position; the scale, the shape kind, the stored custom renderable and the
dirty flag are unchanged, and the mapper identifier-array names are back to
their pre-call values on return (the masking is transient). -/
theorem widgetInteraction_frame_effect
    (pick : EFloat → EFloat → EFloat → List GLMapper → Except Unit Vec3)
    (ex ey : EFloat) (w : World) (c : Actor) (pos : Vec3)
    (hb : w.RendererBound = true)
    (hc : w.rep.Cursor = some c)
    (hp : pick ex ey (.fin 0)
      (w.actors.foldl maskActor ⟨w.mappers, [], []⟩).store = .ok pos) :
    ∃ w', widgetInteraction pick ex ey w = .ok w' ∧
      w'.mappers = w.mappers ∧
      w'.actors = w.actors ∧
      w'.RendererBound = w.RendererBound ∧
      w'.rep.Shape = w.rep.Shape ∧
      w'.rep.NeedUpdate = w.rep.NeedUpdate ∧
      w'.rep.CustomCursor = w.rep.CustomCursor ∧
      w'.rep.Cursor = some { c with position := pos } ∧
      ({ c with position := pos }).scale = c.scale := by
  exact ⟨_, widgetInteraction_ok_eq pick ex ey w c pos hb hc hp,
    rfl, rfl, rfl, rfl, rfl, rfl, rfl, rfl⟩

/-- Witness for C10 on a concrete scene and a pick that hits `(1,2,3)`. -/
theorem widgetInteraction_frame_effect_sample :
    ∃ w', widgetInteraction (fun _ _ _ _ => .ok ⟨.fin 1, .fin 2, .fin 3⟩)
        (.fin 4) (.fin 5) sampleWorld = .ok w' ∧
      w'.mappers = sampleWorld.mappers ∧
      w'.actors = sampleWorld.actors ∧
      w'.RendererBound = sampleWorld.RendererBound ∧
      w'.rep.Shape = sampleWorld.rep.Shape ∧
      w'.rep.NeedUpdate = sampleWorld.rep.NeedUpdate ∧
      w'.rep.CustomCursor = sampleWorld.rep.CustomCursor ∧
      w'.rep.Cursor = some { createCrossCursor with position := ⟨.fin 1, .fin 2, .fin 3⟩ } ∧
      ({ createCrossCursor with position := ⟨.fin 1, .fin 2, .fin 3⟩ }).scale
        = createCrossCursor.scale :=
  widgetInteraction_frame_effect (fun _ _ _ _ => .ok ⟨.fin 1, .fin 2, .fin 3⟩)
    (.fin 4) (.fin 5) sampleWorld createCrossCursor ⟨.fin 1, .fin 2, .fin 3⟩ rfl rfl rfl

/-! Safety of release/render calls: the cursor pointer is never null on any
reachable state. -/

theorem setCursorShape_preserves_cursor (k : Int) (s : RepState) :
    ((setCursorShape k s).1).Cursor = s.Cursor := by
  unfold setCursorShape
  split
  · rfl
  · split <;> rfl

theorem setCustomCursor_preserves_cursor (r : Option Actor) (s : RepState) :
    (setCustomCursor r s).Cursor = s.Cursor := by
  cases r with
  | none => rfl
  | some c =>
    unfold setCustomCursor
    split
    · rfl
    · split <;> rfl

theorem updateCursor_cursor_isSome (s : RepState) (h : s.Cursor.isSome = true) :
    (updateCursor s).Cursor.isSome = true := by
  obtain ⟨sh, nu, cc, cur⟩ := s
  cases nu
  · simpa [updateCursor] using h
  · by_cases h2 : sh = CUSTOM_SHAPE
    · cases cc <;> simp_all [updateCursor]
    · by_cases h3 : sh = SPHERE_SHAPE <;>
        simp_all [updateCursor, SPHERE_SHAPE, CUSTOM_SHAPE]

theorem buildRepresentation_cursor_isSome (f : Vec3 → EFloat) (s : RepState)
    (r : RepState) (h : buildRepresentation f s = some r) :
    r.Cursor.isSome = true := by
  simp only [buildRepresentation] at h
  split at h
  · exact Option.noConfusion h
  · injection h with h'
    subst h'
    rfl

theorem widgetInteraction_ok_cursor_isSome
    (pick : EFloat → EFloat → EFloat → List GLMapper → Except Unit Vec3)
    (ex ey : EFloat) (w w' : World)
    (h : widgetInteraction pick ex ey w = .ok w')
    (hw : w.rep.Cursor.isSome = true) : w'.rep.Cursor.isSome = true := by
  simp only [widgetInteraction] at h
  split at h
  · injection h with h'
    subst h'
    exact hw
  · split at h
    · exact WIResult.noConfusion h
    · split at h
      · exact WIResult.noConfusion h
      · injection h with h'
        subst h'
        rfl

theorem widgetInteraction_fault_rep
    (pick : EFloat → EFloat → EFloat → List GLMapper → Except Unit Vec3)
    (ex ey : EFloat) (w w' : World)
    (h : widgetInteraction pick ex ey w = .fault w') : w'.rep = w.rep := by
  simp only [widgetInteraction] at h
  split at h
  · exact WIResult.noConfusion h
  · split at h
    · injection h with h'
      subst h'
      rfl
    · split at h
      · exact WIResult.noConfusion h
      · exact WIResult.noConfusion h

/-- On every reachable state the cursor smart pointer is non-null. -/
theorem reachable_cursor_isSome {w : World} (h : Reachable w) :
    w.rep.Cursor.isSome = true := by
  induction h with
  | init rb ms as => rfl
  | setShape w k _ ih => rw [setCursorShape_preserves_cursor]; exact ih
  | setCustom w r _ ih => rw [setCustomCursor_preserves_cursor]; exact ih
  | build w f r _ hb ih => exact buildRepresentation_cursor_isSome f w.rep r hb
  | interactOk w w' pick ex ey _ hok ih =>
      exact widgetInteraction_ok_cursor_isSome pick ex ey w w' hok ih
  | interactFault w w' pick ex ey _ hf ih =>
      rw [widgetInteraction_fault_rep pick ex ey w w' hf]; exact ih
  | scene w rb ms as _ ih => exact ih

/-- Claim C9: `ReleaseGraphicsResources` and `RenderOpaqueGeometry` are safe,
non-fatal calls at every reachable state after construction, even before any
explicit shape was requested: construction itself forces a first build, so
the forwarded calls never dereference an absent cursor actor. -/
theorem release_render_safe_after_construction (w : World) (h : Reachable w)
    (f : Vec3 → EFloat) :
    (releaseGraphicsResources w.rep).isSome = true ∧
    (renderOpaqueGeometry f w.rep).isSome = true := by
  have hc := reachable_cursor_isSome h
  cases hcur : w.rep.Cursor with
  | none => rw [hcur] at hc; exact Bool.noConfusion hc
  | some c =>
    constructor
    · simp [releaseGraphicsResources, hcur]
    · have h1 : (updateCursor w.rep).Cursor.isSome = true :=
        updateCursor_cursor_isSome _ (by rw [hcur]; rfl)
      cases hcur2 : (updateCursor w.rep).Cursor with
      | none => rw [hcur2] at h1; exact Bool.noConfusion h1
      | some c2 => simp [renderOpaqueGeometry, buildRepresentation, hcur2]

/-- Witness for C9: immediately after construction, with a renderer bound
and an empty scene, both calls succeed. -/
theorem release_render_safe_after_construction_sample :
    (releaseGraphicsResources (World.mk construct true [] []).rep).isSome = true ∧
    (renderOpaqueGeometry camConst (World.mk construct true [] []).rep).isSome = true :=
  release_render_safe_after_construction ⟨construct, true, [], []⟩
    (Reachable.init true [] []) camConst

end VtkCursor
